import Mathlib

/-!
Shallow embedding of `CmpStreamPrefetcher::ProcessRequest` and its helpers
(src/CmpStreamPrefetcher.h).  Machine integers are modelled as `Nat`/`Int`
with explicit reductions modulo `2^64` (for `addr_t`, a 64-bit unsigned
integer) and modulo `2^32` (for `uint32` and for truncations to `int32`),
placed exactly where the C++ integer conversions happen.
-/

/-- Width of `addr_t` (64-bit unsigned). -/
def W64 : Nat := 2 ^ 64

/-- Width of `uint32` / `int32`. -/
def W32 : Nat := 2 ^ 32

/-- Conversion of a 64-bit unsigned value to `long long` (as performed when
the `uint64` difference is passed to `llabs`): values `≥ 2^63` wrap to
negatives. -/
def toInt64 (n : Nat) : Int :=
  if n % W64 < 2 ^ 63 then ((n % W64 : Nat) : Int)
  else ((n % W64 : Nat) : Int) - (W64 : Int)

/-- Truncation of an unsigned 64-bit value to `int32` (the assignment
`int32 maxPrefetches = (uint64 expression)`). -/
def toInt32 (n : Nat) : Int :=
  if n % W32 < 2 ^ 31 then ((n % W32 : Nat) : Int)
  else ((n % W32 : Nat) : Int) - (W32 : Int)

/-- `llabs(a - b)` where `a`, `b` are `addr_t`: the subtraction wraps modulo
`2^64`, the result is reinterpreted as `long long`, and its absolute value is
taken. -/
def llabsDiff (a b : Nat) : Nat :=
  (toInt64 ((a % W64 + W64 - b % W64) % W64)).natAbs

/-- `enum StreamDirection { FORWARD = 1, BACKWARD = -1, NONE = 0 }`. -/
inductive StreamDirection where
  | FORWARD
  | BACKWARD
  | NONE
deriving DecidableEq

/-- `struct StreamEntry`.  `trainHits` is a C `int`; it is modelled as an
unbounded `Int` (every reachable state keeps it far below `2^31`). -/
structure StreamEntry where
  allocMissAddress : Nat
  ip : Nat
  sp : Nat
  ep : Nat
  psp : Nat
  pep : Nat
  trainHits : Int
  trained : Bool
  direction : StreamDirection
deriving DecidableEq

/-- The configuration parameters of `CmpStreamPrefetcher`. -/
structure Config where
  blockSize : Nat
  prefetchOnWrite : Bool
  tableSize : Nat
  numTrains : Nat
  trainDistance : Nat
  distance : Nat
  degree : Nat

/-- `_trainAddrDistance = _trainDistance * _blockSize`, computed in `uint32`
arithmetic before widening to `addr_t` (StartSimulation). -/
def Config.trainAddrDistance (c : Config) : Nat :=
  (c.trainDistance * c.blockSize) % W32

/-- `_prefetchAddrDistance = _distance * _blockSize`, computed in `uint32`
arithmetic before widening to `addr_t` (StartSimulation). -/
def Config.prefetchAddrDistance (c : Config) : Nat :=
  (c.distance * c.blockSize) % W32

/-- The request kinds `ProcessRequest` distinguishes. -/
inductive ReqType where
  | READ
  | READ_FOR_WRITE
  | WRITE
  | WRITEBACK
  | PREFETCH
deriving DecidableEq

/-- The fields of `MemoryRequest` read by `ProcessRequest`. -/
structure Request where
  type : ReqType
  vaddr : Nat
  paddr : Nat
  ip : Nat
  icount : Nat
deriving DecidableEq

/-- The fields of an emitted prefetch `MemoryRequest` that this module sets
from stream state: virtual/physical block address, instruction pointer and
instruction count. -/
structure PrefetchReq where
  vaddr : Nat
  paddr : Nat
  ip : Nat
  icount : Nat
deriving DecidableEq

/-- Modelled from the spec: the `VBLOCK_ADDRESS`/`PBLOCK_ADDRESS` macros live
in MemoryComponent.h, outside this repository; per §4.1 the access address is
"normalized to its containing block (block-aligned down)". -/
def blockAlign (blockSize addr : Nat) : Nat :=
  addr / blockSize * blockSize

/-- One row of the stream table: `table_t<uint32, StreamEntry>::entry`. -/
structure TableRow where
  key : Nat
  value : StreamEntry
  valid : Bool
deriving DecidableEq

/-- The mutable state of the prefetcher: the stream table's rows (slot
order, as walked by `entry_at_index`) and `_runningIndex`. -/
structure State where
  rows : List TableRow
  runningIndex : Nat
deriving DecidableEq

/-- The per-row match test of the scan loop (lines 219-236): a training-phase
row hits when `llabs(allocMissAddress - vcla) < _trainAddrDistance`; a trained
row hits when `sp <= vcla && ep >= vcla`. -/
def matchEntry (cfg : Config) (e : StreamEntry) (vcla : Nat) : Bool :=
  if e.trained = false then
    decide (llabsDiff e.allocMissAddress vcla < cfg.trainAddrDistance)
  else
    decide (e.sp ≤ vcla) && decide (vcla ≤ e.ep)

/-- The scan over `entry_at_index(0..tableSize-1)`: first valid matching row
wins.  (`_streamTable[key]` afterwards resolves to this row's value, since
table keys are unique by the table contract.) -/
def findMatchRow (cfg : Config) (rows : List TableRow) (vcla : Nat) :
    Option TableRow :=
  match rows with
  | [] => none
  | row :: rest =>
    if row.valid && matchEntry cfg row.value vcla then some row
    else findMatchRow cfg rest vcla

/-- The direction-update part of the training branch (lines 251-293). -/
def trainCore (e : StreamEntry) (vcla pcla : Nat) : StreamEntry :=
  if e.allocMissAddress < vcla then
    match e.direction with
    | StreamDirection.FORWARD =>
      if vcla > e.ep then
        { e with trainHits := e.trainHits + 1, ep := vcla, pep := pcla }
      else
        { e with trainHits := e.trainHits + 1 }
    | StreamDirection.BACKWARD | StreamDirection.NONE =>
      { e with trainHits := 1, direction := StreamDirection.FORWARD,
               ep := vcla, pep := pcla }
  else
    match e.direction with
    | StreamDirection.BACKWARD =>
      if vcla < e.ep then
        { e with trainHits := e.trainHits + 1, ep := vcla, pep := pcla }
      else
        { e with trainHits := e.trainHits + 1 }
    | StreamDirection.FORWARD | StreamDirection.NONE =>
      { e with trainHits := 1, direction := StreamDirection.BACKWARD,
               ep := vcla, pep := pcla }

/-- The full training step: direction update followed by the promotion check
`if (entry.trainHits >= _numTrains) entry.trained = true;` (lines 296-297).
C compares `int` with `uint32` after integer promotion; the comparison used
here coincides with it whenever `0 ≤ trainHits < 2^31`, which holds in every
reachable state. -/
def trainStep (cfg : Config) (e : StreamEntry) (vcla pcla : Nat) : StreamEntry :=
  if (cfg.numTrains : Int) ≤ (trainCore e vcla pcla).trainHits then
    { trainCore e vcla pcla with trained := true }
  else trainCore e vcla pcla

/-- The `uint64` quotient computed at lines 308-315: forward
`(sp + (_prefetchAddrDistance + _blockSize) - ep) / _blockSize`, backward
`(ep - (sp - (_prefetchAddrDistance + _blockSize))) / _blockSize`, all in
wrapping 64-bit arithmetic. -/
def maxPrefetchesU64 (cfg : Config) (e : StreamEntry) : Nat :=
  if e.direction = StreamDirection.FORWARD then
    let maxAddress := (e.sp + (cfg.prefetchAddrDistance + cfg.blockSize)) % W64
    ((maxAddress + W64 - e.ep % W64) % W64) / cfg.blockSize
  else
    let minAddress :=
      (e.sp % W64 + W64 - (cfg.prefetchAddrDistance + cfg.blockSize) % W64) % W64
    ((e.ep % W64 + W64 - minAddress) % W64) / cfg.blockSize

/-- The number of loop iterations at line 318.  The quotient is first
truncated to `int32 maxPrefetches`; the ternary `maxPrefetches < _degree`
compares it with the `uint32 _degree` after the usual arithmetic conversions,
i.e. as unsigned 32-bit values; the chosen `uint32` is truncated back to
`int32 numPrefetches`, and the loop runs only while `i < numPrefetches`,
i.e. zero times when that `int32` is not positive. -/
def numPrefetchesCount (cfg : Config) (e : StreamEntry) : Nat :=
  let u := maxPrefetchesU64 cfg e % W32
  let t := if u < cfg.degree % W32 then u else cfg.degree % W32
  if t < 2 ^ 31 then t else 0

/-- The per-iteration address step `entry.direction * _blockSize`: the enum
(`int`) is multiplied by the `uint32` block size in unsigned 32-bit
arithmetic and the result is zero-extended before being added to the 64-bit
`ep`/`pep`; for `BACKWARD` this yields `2^32 - blockSize`, not `-blockSize`
over the 64-bit address. -/
def dirStepU32 (cfg : Config) (d : StreamDirection) : Nat :=
  match d with
  | StreamDirection.FORWARD => cfg.blockSize % W32
  | StreamDirection.BACKWARD => (W32 - cfg.blockSize % W32) % W32
  | StreamDirection.NONE => 0

/-- The issue loop at lines 318-329: each iteration advances `ep`/`pep` by
`step` (mod 2^64) and then emits a prefetch at the new address pair carrying
the triggering request's `ip` and `icount`.  Returns the final `ep`, final
`pep`, and the emitted prefetches in issue order. -/
def advanceLoop (step ep pep ipv ic : Nat) : Nat → Nat × Nat × List PrefetchReq
  | 0 => (ep, pep, [])
  | Nat.succ n =>
    let ep' := (ep + step) % W64
    let pep' := (pep + step) % W64
    let r := advanceLoop step ep' pep' ipv ic n
    (r.1, r.2.1, { vaddr := ep', paddr := pep', ip := ipv, icount := ic } :: r.2.2)

/-- The window slide at lines 333-340. -/
def slideWindow (cfg : Config) (e : StreamEntry) : StreamEntry :=
  if e.direction = StreamDirection.FORWARD ∧
      cfg.prefetchAddrDistance < (e.ep % W64 + W64 - e.sp % W64) % W64 then
    { e with sp := (e.ep % W64 + W64 - cfg.prefetchAddrDistance) % W64 }
  else if e.direction = StreamDirection.BACKWARD ∧
      cfg.prefetchAddrDistance < (e.sp % W64 + W64 - e.ep % W64) % W64 then
    { e with sp := (e.ep + cfg.prefetchAddrDistance) % W64 }
  else e

/-- The whole trained block (lines 301-341): compute the issue count, run the
issue loop, then slide the window. -/
def issueStep (cfg : Config) (e : StreamEntry) (req : Request) :
    StreamEntry × List PrefetchReq :=
  let r := advanceLoop (dirStepU32 cfg e.direction) e.ep e.pep req.ip req.icount
             (numPrefetchesCount cfg e)
  (slideWindow cfg { e with ep := r.1, pep := r.2.1 }, r.2.2)

/-- The matched entry after the training phase of a hit (lines 249-298):
unchanged when already trained, else updated by the training step. -/
def postTrainEntry (cfg : Config) (e : StreamEntry) (vcla pcla : Nat) :
    StreamEntry :=
  if e.trained then e else trainStep cfg e vcla pcla

/-- The update applied to the matched entry on a hit (lines 249-341): the
training step when untrained, then the issue step when (now) trained. -/
def hitUpdate (cfg : Config) (e : StreamEntry) (vcla pcla : Nat) (req : Request) :
    StreamEntry × List PrefetchReq :=
  if (postTrainEntry cfg e vcla pcla).trained then
    issueStep cfg (postTrainEntry cfg e vcla pcla) req
  else (postTrainEntry cfg e vcla pcla, [])

/-- The redundancy test at lines 349-354, with `e` the just-advanced entry
and `r` another row's value. -/
def redundantTest (e r : StreamEntry) : Bool :=
  (decide (e.direction = StreamDirection.FORWARD) &&
    ((decide (r.sp ≤ e.ep) && decide (e.sp ≤ r.sp)) ||
     (decide (r.ep ≤ e.ep) && decide (e.sp ≤ r.ep)))) ||
  (decide (e.direction = StreamDirection.BACKWARD) &&
    ((decide (r.sp ≤ e.sp) && decide (e.ep ≤ r.sp)) ||
     (decide (r.ep ≤ e.sp) && decide (e.ep ≤ r.ep))))

/-- The redundancy pass at lines 344-357: every valid row other than the
matched key whose value passes `redundantTest` against the advanced entry is
invalidated. -/
def reapPass (rows : List TableRow) (k : Nat) (e : StreamEntry) : List TableRow :=
  rows.map (fun row =>
    if row.valid && !(decide (row.key = k)) && redundantTest e row.value then
      { row with valid := false }
    else row)

/-- In-place mutation of the matched row's value through
`StreamEntry &entry = _streamTable[key]`. -/
def updateRow (rows : List TableRow) (k : Nat) (e : StreamEntry) : List TableRow :=
  rows.map (fun row => if row.key = k then { row with value := e } else row)

/-- The record built by the allocation path (lines 362-372). -/
def allocEntry (vcla pcla ipv : Nat) : StreamEntry :=
  { allocMissAddress := vcla, ip := ipv, sp := vcla, ep := vcla,
    psp := pcla, pep := pcla, trainHits := 0, trained := false,
    direction := StreamDirection.NONE }

/-- Modelled from the spec: `generic_table_t::insert` lives in GenericTable.h,
outside this repository; the table is an external collaborator whose
capacity/eviction mechanics are out of scope (§1, §4.5), so insertion is
modelled as appending the new row. -/
def tableInsert (rows : List TableRow) (k : Nat) (e : StreamEntry) :
    List TableRow :=
  rows ++ [{ key := k, value := e, valid := true }]

/-- `ProcessRequest` (lines 183-378).  Returns the new state, the emitted
prefetches in issue order, and the returned busy-cycle count. -/
def ProcessRequest (cfg : Config) (st : State) (req : Request) :
    State × List PrefetchReq × Nat :=
  if req.type = ReqType.WRITE ∨ req.type = ReqType.WRITEBACK ∨
      req.type = ReqType.PREFETCH then
    (st, [], 0)
  else if cfg.prefetchOnWrite = false ∧ req.type = ReqType.READ_FOR_WRITE then
    (st, [], 0)
  else
    -- `vcla`/`pcla` of lines 198-199 stand for the block-aligned virtual and
    -- physical addresses, written out in full below.
    match findMatchRow cfg st.rows (blockAlign cfg.blockSize req.vaddr) with
    | some row =>
      ({ st with
           rows := reapPass
             (updateRow st.rows row.key
               (hitUpdate cfg row.value (blockAlign cfg.blockSize req.vaddr)
                 (blockAlign cfg.blockSize req.paddr) req).1)
             row.key
             (hitUpdate cfg row.value (blockAlign cfg.blockSize req.vaddr)
               (blockAlign cfg.blockSize req.paddr) req).1 },
       (hitUpdate cfg row.value (blockAlign cfg.blockSize req.vaddr)
         (blockAlign cfg.blockSize req.paddr) req).2, 0)
    | none =>
      ({ rows := tableInsert st.rows st.runningIndex
           (allocEntry (blockAlign cfg.blockSize req.vaddr)
             (blockAlign cfg.blockSize req.paddr) req.ip),
         runningIndex := (st.runningIndex + 1) % W32 }, [], 0)

/-! ### Concrete fixtures used by witnesses and counterexamples -/

/-- A configuration with the default parameters except `distance = 4`
(a legal parameter setting, chosen so that the training window is wider
than the prefetch look-ahead window). -/
def cfgU : Config :=
  { blockSize := 64, prefetchOnWrite := false, tableSize := 16,
    numTrains := 2, trainDistance := 16, distance := 4, degree := 4 }

/-- Like `cfgU` but with `degree = 2`. -/
def cfgC : Config :=
  { blockSize := 64, prefetchOnWrite := false, tableSize := 16,
    numTrains := 2, trainDistance := 16, distance := 4, degree := 2 }

/-- The empty initial state (`StartSimulation`). -/
def st0 : State := { rows := [], runningIndex := 0 }

/-- A read request at address `a` with instruction pointer `ipv`. -/
def rdReq (a ipv : Nat) : Request :=
  { type := ReqType.READ, vaddr := a, paddr := a, ip := ipv, icount := 0 }

/-- The stream entry reached after reads at 0, 640, 960 under `cfgU`, at the
moment the issue window computation runs (trained on the third access). -/
def entU : StreamEntry :=
  { allocMissAddress := 0, ip := 7, sp := 0, ep := 960, psp := 0, pep := 960,
    trainHits := 2, trained := true, direction := StreamDirection.FORWARD }

/-- A trained forward entry used by witnesses. -/
def entF : StreamEntry :=
  { allocMissAddress := 0, ip := 7, sp := 0, ep := 64, psp := 0, pep := 64,
    trainHits := 2, trained := true, direction := StreamDirection.FORWARD }

/-- A trained backward entry whose `ep` has advanced below `sp`. -/
def entB : StreamEntry :=
  { allocMissAddress := 640, ip := 7, sp := 640, ep := 320, psp := 640,
    pep := 320, trainHits := 2, trained := true,
    direction := StreamDirection.BACKWARD }

/-- An untrained entry tracking a backward run, used to exhibit a
direction-reset. -/
def entR : StreamEntry :=
  { allocMissAddress := 640, ip := 7, sp := 640, ep := 576, psp := 640,
    pep := 576, trainHits := 3, trained := false,
    direction := StreamDirection.BACKWARD }

/-- An untrained entry with one backward training hit recorded at its own
anchor address. -/
def entA : StreamEntry :=
  { allocMissAddress := 128, ip := 5, sp := 128, ep := 128, psp := 128,
    pep := 128, trainHits := 1, trained := false,
    direction := StreamDirection.BACKWARD }

/-! ### Helper lemmas -/

theorem wrapSub_eq {a b : Nat} (hba : b ≤ a) (ha : a < W64) :
    (a + W64 - b) % W64 = a - b := by
  have h1 : a + W64 - b = W64 + (a - b) := by omega
  rw [h1, Nat.add_mod_left]
  exact Nat.mod_eq_of_lt (by omega)

theorem get_map_aux {α β : Type} (f : α → β) (l : List α) (i : Nat)
    (h : i < l.length) (h2 : i < (l.map f).length) :
    (l.map f).get ⟨i, h2⟩ = f (l.get ⟨i, h⟩) := by
  induction l generalizing i with
  | nil => cases h
  | cons a t ih =>
    cases i with
    | zero => rfl
    | succ n =>
      exact ih n (Nat.lt_of_succ_lt_succ h) (Nat.lt_of_succ_lt_succ h2)

theorem advanceLoop_fst (step ep pep ipv ic : Nat) (n : Nat) (h : ep < W64) :
    (advanceLoop step ep pep ipv ic n).1 = (ep + n * step) % W64 := by
  induction n generalizing ep pep with
  | zero =>
    simp only [advanceLoop, Nat.zero_mul, Nat.add_zero]
    exact (Nat.mod_eq_of_lt h).symm
  | succ n ih =>
    have hlt : (ep + step) % W64 < W64 := Nat.mod_lt _ (by norm_num [W64])
    calc (advanceLoop step ep pep ipv ic (n + 1)).1
        = (advanceLoop step ((ep + step) % W64) ((pep + step) % W64) ipv ic n).1 :=
          rfl
      _ = ((ep + step) % W64 + n * step) % W64 := ih _ _ hlt
      _ = (ep + step + n * step) % W64 := by rw [Nat.mod_add_mod]
      _ = (ep + (n + 1) * step) % W64 := by congr 1; ring

theorem advanceLoop_ip_icount (step ep pep ipv ic : Nat) (n : Nat)
    (p : PrefetchReq) (hp : p ∈ (advanceLoop step ep pep ipv ic n).2.2) :
    p.ip = ipv ∧ p.icount = ic := by
  induction n generalizing ep pep with
  | zero => simp [advanceLoop] at hp
  | succ n ih =>
    have hcons : (advanceLoop step ep pep ipv ic (Nat.succ n)).2.2 =
        { vaddr := (ep + step) % W64, paddr := (pep + step) % W64,
          ip := ipv, icount := ic } ::
          (advanceLoop step ((ep + step) % W64) ((pep + step) % W64) ipv ic n).2.2 :=
      rfl
    rw [hcons] at hp
    rcases List.mem_cons.mp hp with h | h
    · subst h; exact ⟨rfl, rfl⟩
    · exact ih _ _ h

theorem numPrefetchesCount_le (cfg : Config) (e : StreamEntry) :
    numPrefetchesCount cfg e ≤ cfg.degree := by
  have hmod : cfg.degree % W32 ≤ cfg.degree := Nat.mod_le _ _
  unfold numPrefetchesCount
  by_cases h1 : maxPrefetchesU64 cfg e % W32 < cfg.degree % W32 <;>
    simp only [h1, if_true, if_false, reduceIte] <;> split <;> omega

theorem slideWindow_preserves (cfg : Config) (e : StreamEntry) :
    (slideWindow cfg e).trained = e.trained ∧
    (slideWindow cfg e).trainHits = e.trainHits ∧
    (slideWindow cfg e).direction = e.direction ∧
    (slideWindow cfg e).ep = e.ep ∧
    (slideWindow cfg e).ip = e.ip := by
  unfold slideWindow
  split
  · exact ⟨rfl, rfl, rfl, rfl, rfl⟩
  · split
    · exact ⟨rfl, rfl, rfl, rfl, rfl⟩
    · exact ⟨rfl, rfl, rfl, rfl, rfl⟩

theorem issueStep_preserves (cfg : Config) (e : StreamEntry) (req : Request) :
    ((issueStep cfg e req).1).trained = e.trained ∧
    ((issueStep cfg e req).1).trainHits = e.trainHits ∧
    ((issueStep cfg e req).1).direction = e.direction := by
  obtain ⟨h1, h2, h3, -, -⟩ := slideWindow_preserves cfg
    { e with
        ep := (advanceLoop (dirStepU32 cfg e.direction) e.ep e.pep req.ip
                req.icount (numPrefetchesCount cfg e)).1,
        pep := (advanceLoop (dirStepU32 cfg e.direction) e.ep e.pep req.ip
                req.icount (numPrefetchesCount cfg e)).2.1 }
  exact ⟨h1, h2, h3⟩

theorem trainCore_spec (e : StreamEntry) (vcla pcla : Nat) :
    ((trainCore e vcla pcla).trainHits = e.trainHits + 1 ∨
      (trainCore e vcla pcla).trainHits = 1) ∧
    (trainCore e vcla pcla).trained = e.trained ∧
    (trainCore e vcla pcla).sp = e.sp := by
  unfold trainCore
  split
  · split
    · split
      · exact ⟨Or.inl rfl, rfl, rfl⟩
      · exact ⟨Or.inl rfl, rfl, rfl⟩
    · exact ⟨Or.inr rfl, rfl, rfl⟩
    · exact ⟨Or.inr rfl, rfl, rfl⟩
  · split
    · split
      · exact ⟨Or.inl rfl, rfl, rfl⟩
      · exact ⟨Or.inl rfl, rfl, rfl⟩
    · exact ⟨Or.inr rfl, rfl, rfl⟩
    · exact ⟨Or.inr rfl, rfl, rfl⟩

theorem trainStep_fields (cfg : Config) (e : StreamEntry) (vcla pcla : Nat) :
    (trainStep cfg e vcla pcla).trainHits = (trainCore e vcla pcla).trainHits ∧
    (trainStep cfg e vcla pcla).direction = (trainCore e vcla pcla).direction ∧
    (trainStep cfg e vcla pcla).ep = (trainCore e vcla pcla).ep ∧
    (trainStep cfg e vcla pcla).pep = (trainCore e vcla pcla).pep ∧
    (trainStep cfg e vcla pcla).sp = (trainCore e vcla pcla).sp ∧
    (trainStep cfg e vcla pcla).psp = (trainCore e vcla pcla).psp := by
  unfold trainStep
  split
  · exact ⟨rfl, rfl, rfl, rfl, rfl, rfl⟩
  · exact ⟨rfl, rfl, rfl, rfl, rfl, rfl⟩

theorem trainStep_trained_of (cfg : Config) (e : StreamEntry) (vcla pcla : Nat)
    (h : (trainStep cfg e vcla pcla).trained = true) (he : e.trained = false) :
    (cfg.numTrains : Int) ≤ (trainStep cfg e vcla pcla).trainHits := by
  rw [(trainStep_fields cfg e vcla pcla).1]
  unfold trainStep at h
  by_cases hc : (cfg.numTrains : Int) ≤ (trainCore e vcla pcla).trainHits
  · exact hc
  · rw [if_neg hc] at h
    rw [(trainCore_spec e vcla pcla).2.1, he] at h
    cases h

/-- A trained forward entry whose record `ip` (111) differs from the `ip` of
the access that will trigger issuance (222). -/
def entT : StreamEntry :=
  { allocMissAddress := 0, ip := 111, sp := 0, ep := 128, psp := 0, pep := 128,
    trainHits := 2, trained := true, direction := StreamDirection.FORWARD }

/-! ### Claim theorems -/

/-- C1: for every valid trained (active-phase) record, the Stream Matcher's
per-row test reports a hit on a block-aligned address `a` iff
`sp ≤ a ∧ a ≤ ep`; in particular, once a trained backward record's `ep` has
advanced below `sp`, the containment test holds for no address at all (so for
no interior address of the stream's extent). -/
theorem c1_active_hit_iff_containment (cfg : Config) (e : StreamEntry) (a : Nat)
    (ht : e.trained = true) :
    (matchEntry cfg e a = true ↔ (e.sp ≤ a ∧ a ≤ e.ep)) ∧
    (e.ep < e.sp → matchEntry cfg e a = false) := by
  constructor
  · unfold matchEntry
    rw [ht]
    simp
  · intro hlt
    unfold matchEntry
    rw [ht]
    simp only [Bool.true_eq_false, if_false, Bool.and_eq_false_iff,
      decide_eq_false_iff_not, not_le]
    omega

/-- C1 witness: the trained backward record `entB` has `sp = 640 > ep = 320`;
at the interior address 500 the containment test reports no hit. -/
theorem c1_witness :
    (matchEntry cfgU entB 500 = true ↔ (entB.sp ≤ 500 ∧ 500 ≤ entB.ep)) ∧
    (entB.ep < entB.sp → matchEntry cfgU entB 500 = false) :=
  c1_active_hit_iff_containment cfgU entB 500 rfl

/-- C2 (code bug): under `cfgU` (train-distance 16, distance 4, degree 4),
reads at 0, 640, 960 train a forward record to `sp = 0`, `ep = 960` (this is
`entU`).  The `int32` room computed by the code is `-10`, i.e. the available
room is negative, so the claim requires zero prefetches; but the comparison
`maxPrefetches < _degree` is performed on unsigned values, so the code
issues `degree = 4` prefetches. -/
theorem c2_negative_room_issues_degree :
    toInt32 (maxPrefetchesU64 cfgU entU) = -10 ∧
    numPrefetchesCount cfgU entU = 4 ∧
    ((ProcessRequest cfgU
        ((ProcessRequest cfgU
            ((ProcessRequest cfgU st0 (rdReq 0 7)).1)
            (rdReq 640 7)).1)
        (rdReq 960 7)).2.1).length = 4 := by
  refine ⟨by decide, by decide, by decide⟩

/-- C3 counterexample: with reads at 0 (ip 111), 64 (ip 222), 128 (ip 222),
the record is allocated with `originIP = 111`, yet both prefetches issued on
the third access carry ip 222 — the triggering access's ip, not the record's
`originIP`. -/
theorem c3_counterexample :
    ((ProcessRequest cfgC
        ((ProcessRequest cfgC
            ((ProcessRequest cfgC st0 (rdReq 0 111)).1)
            (rdReq 64 222)).1)
        (rdReq 128 222)).2.1).map PrefetchReq.ip = [222, 222] ∧
    ((ProcessRequest cfgC
        ((ProcessRequest cfgC
            ((ProcessRequest cfgC st0 (rdReq 0 111)).1)
            (rdReq 64 222)).1)
        (rdReq 128 222)).1.rows.map (fun r => r.value.ip)) = [111] ∧
    (222 : Nat) ≠ 111 := by
  refine ⟨by decide, by decide, by decide⟩

/-- C3 amended: every prefetch request emitted on an issuance step carries
the triggering access's instruction pointer and instruction count (the
record's stored `originIP` is written at allocation but never copied into
prefetches). -/
theorem c3_prefetch_carries_request_ip (cfg : Config) (e : StreamEntry)
    (req : Request) (p : PrefetchReq) (hp : p ∈ (issueStep cfg e req).2) :
    p.ip = req.ip ∧ p.icount = req.icount := by
  have h2 : (issueStep cfg e req).2 =
      (advanceLoop (dirStepU32 cfg e.direction) e.ep e.pep req.ip req.icount
        (numPrefetchesCount cfg e)).2.2 := rfl
  rw [h2] at hp
  exact advanceLoop_ip_icount _ _ _ _ _ _ _ hp

/-- C3 amended witness: the first prefetch issued by `entT` on the access
`rdReq 128 222` carries that access's ip and icount. -/
theorem c3_witness :
    (⟨192, 192, 222, 0⟩ : PrefetchReq).ip = (rdReq 128 222).ip ∧
    (⟨192, 192, 222, 0⟩ : PrefetchReq).icount = (rdReq 128 222).icount :=
  c3_prefetch_carries_request_ip cfgC entT (rdReq 128 222)
    ⟨192, 192, 222, 0⟩ (by decide)

/-- C4 counterexample: `entR` is an untrained backward-tracking record with
anchor 640 and extent pointers `sp = 640`, `ep = 576`; the access at 704 is a
training hit opposite to the tracked direction.  The reset sets
`trainHits = 1`, `direction = FORWARD` and `ep = 704`, but leaves
`sp = 640 ≠ 704`: the tracked extent after the reset is `[640, 704]`, not
the single block at the access address. -/
theorem c4_counterexample :
    matchEntry cfgU entR 704 = true ∧
    (trainStep cfgU entR 704 704).trainHits = 1 ∧
    (trainStep cfgU entR 704 704).direction = StreamDirection.FORWARD ∧
    (trainStep cfgU entR 704 704).ep = 704 ∧
    (trainStep cfgU entR 704 704).sp = 640 ∧
    (640 : Nat) ≠ 704 := by
  refine ⟨by decide, by decide, by decide, by decide, by decide, by decide⟩

/-- C4 amended: a training hit whose direction is opposite to the tracked
direction (or whose direction is not yet set) resets `trainHits` to 1, sets
`direction` to the new direction, and overwrites `ep`/`pep` with the access's
block-aligned virtual/physical address; `sp`/`psp` keep their prior (anchor
side) values, so the extent becomes anchor-to-access, not a single block. -/
theorem c4_direction_reset (cfg : Config) (e : StreamEntry) (vcla pcla : Nat)
    (hf : e.allocMissAddress < vcla → e.direction ≠ StreamDirection.FORWARD)
    (hb : ¬ e.allocMissAddress < vcla → e.direction ≠ StreamDirection.BACKWARD) :
    (trainStep cfg e vcla pcla).trainHits = 1 ∧
    (trainStep cfg e vcla pcla).direction =
      (if e.allocMissAddress < vcla then StreamDirection.FORWARD
       else StreamDirection.BACKWARD) ∧
    (trainStep cfg e vcla pcla).ep = vcla ∧
    (trainStep cfg e vcla pcla).pep = pcla ∧
    (trainStep cfg e vcla pcla).sp = e.sp ∧
    (trainStep cfg e vcla pcla).psp = e.psp := by
  have hcore : trainCore e vcla pcla =
      { e with trainHits := 1,
               direction := (if e.allocMissAddress < vcla
                             then StreamDirection.FORWARD
                             else StreamDirection.BACKWARD),
               ep := vcla, pep := pcla } := by
    unfold trainCore
    by_cases h : e.allocMissAddress < vcla
    · rw [if_pos h, if_pos h]
      cases hdir : e.direction with
      | FORWARD => exact absurd hdir (hf h)
      | BACKWARD => rfl
      | NONE => rfl
    · rw [if_neg h, if_neg h]
      cases hdir : e.direction with
      | BACKWARD => exact absurd hdir (hb h)
      | FORWARD => rfl
      | NONE => rfl
  obtain ⟨h1, h2, h3, h4, h5, h6⟩ := trainStep_fields cfg e vcla pcla
  rw [h1, h2, h3, h4, h5, h6, hcore]
  exact ⟨rfl, rfl, rfl, rfl, rfl, rfl⟩

/-- C4 amended witness: the reset triggered on `entR` by the opposite-direction
hit at 704. -/
theorem c4_witness :
    (trainStep cfgU entR 704 704).trainHits = 1 ∧
    (trainStep cfgU entR 704 704).direction =
      (if entR.allocMissAddress < 704 then StreamDirection.FORWARD
       else StreamDirection.BACKWARD) ∧
    (trainStep cfgU entR 704 704).ep = 704 ∧
    (trainStep cfgU entR 704 704).pep = 704 ∧
    (trainStep cfgU entR 704 704).sp = entR.sp ∧
    (trainStep cfgU entR 704 704).psp = entR.psp :=
  c4_direction_reset cfgU entR 704 704 (fun _ => by decide)
    (fun h => absurd (by decide : entR.allocMissAddress < 704) h)

/-- Length preservation of the redundancy pass. -/
theorem reapPass_length (rows : List TableRow) (k : Nat) (e : StreamEntry) :
    (reapPass rows k e).length = rows.length := by
  simp [reapPass]

/-- Fixture rows for the redundancy-pass witness. -/
def rowsW : List TableRow :=
  [{ key := 5, value := entT, valid := true },
   { key := 9, value := entB, valid := true }]

/-- C5: after the redundancy pass, a row keeps its key and value, and it is
valid exactly when it was valid before and is either the advanced record's
own row or fails the direction-oriented intersection test against the
advanced record's extent — i.e. every other valid row passing the oriented
test has been invalidated, and only those. -/
theorem c5_reap_valid_iff (rows : List TableRow) (k : Nat) (e : StreamEntry)
    (i : Nat) (h : i < rows.length) :
    ((reapPass rows k e).get ⟨i, (reapPass_length rows k e).symm ▸ h⟩).key =
      (rows.get ⟨i, h⟩).key ∧
    ((reapPass rows k e).get ⟨i, (reapPass_length rows k e).symm ▸ h⟩).value =
      (rows.get ⟨i, h⟩).value ∧
    (((reapPass rows k e).get ⟨i, (reapPass_length rows k e).symm ▸ h⟩).valid = true ↔
      ((rows.get ⟨i, h⟩).valid = true ∧
        ((rows.get ⟨i, h⟩).key = k ∨
          redundantTest e (rows.get ⟨i, h⟩).value = false))) := by
  have hg : (reapPass rows k e).get ⟨i, (reapPass_length rows k e).symm ▸ h⟩ =
      (if (rows.get ⟨i, h⟩).valid && !(decide ((rows.get ⟨i, h⟩).key = k))
          && redundantTest e (rows.get ⟨i, h⟩).value then
        { rows.get ⟨i, h⟩ with valid := false }
      else rows.get ⟨i, h⟩) :=
    get_map_aux _ rows i h _
  rw [hg]
  by_cases hc : ((rows.get ⟨i, h⟩).valid && !(decide ((rows.get ⟨i, h⟩).key = k))
      && redundantTest e (rows.get ⟨i, h⟩).value) = true
  · rw [if_pos hc]
    simp only [Bool.and_eq_true, Bool.not_eq_true', decide_eq_false_iff_not] at hc
    obtain ⟨⟨hv, hk⟩, htest⟩ := hc
    refine ⟨rfl, rfl, ?_⟩
    constructor
    · exact fun hfalse => Bool.noConfusion hfalse
    · rintro ⟨-, hor | hor⟩
      · exact absurd hor hk
      · rw [htest] at hor
        exact Bool.noConfusion hor
  · rw [if_neg (fun hh => hc hh)]
    refine ⟨rfl, rfl, ?_⟩
    simp only [Bool.and_eq_true, Bool.not_eq_true', decide_eq_false_iff_not] at hc
    constructor
    · intro hv
      rcases Bool.eq_false_or_eq_true (redundantTest e (rows.get ⟨i, h⟩).value)
        with ht2 | ht2
      · by_cases hk : (rows.get ⟨i, h⟩).key = k
        · exact ⟨hv, Or.inl hk⟩
        · exact absurd ⟨⟨hv, hk⟩, ht2⟩ hc
      · exact ⟨hv, Or.inr ht2⟩
    · exact fun hx => hx.1

/-- C5 witness: the pass at key 5 with advanced entry `entF` over `rowsW`. -/
theorem c5_witness :
    ((reapPass rowsW 5 entF).get
        ⟨0, (reapPass_length rowsW 5 entF).symm ▸ (by decide)⟩).key =
      (rowsW.get ⟨0, by decide⟩).key ∧
    ((reapPass rowsW 5 entF).get
        ⟨0, (reapPass_length rowsW 5 entF).symm ▸ (by decide)⟩).value =
      (rowsW.get ⟨0, by decide⟩).value ∧
    (((reapPass rowsW 5 entF).get
        ⟨0, (reapPass_length rowsW 5 entF).symm ▸ (by decide)⟩).valid = true ↔
      ((rowsW.get ⟨0, by decide⟩).valid = true ∧
        ((rowsW.get ⟨0, by decide⟩).key = 5 ∨
          redundantTest entF (rowsW.get ⟨0, by decide⟩).value = false))) :=
  c5_reap_valid_iff rowsW 5 entF 0 (by decide)

/-- C6: over the hit update (the only code that mutates an existing record)
and the allocator's fresh record: `trained` never goes from `true` to
`false`; an untrained record that comes out trained has `trainHits` at or
above the `num-trains` threshold (the promotion guard, lines 296-297); and
`trainHits ≥ 0` is preserved, with fresh records starting untrained at 0. -/
theorem c6_trained_monotone (cfg : Config) (e : StreamEntry) (vcla pcla : Nat)
    (req : Request) :
    ((e.trained = true → ((hitUpdate cfg e vcla pcla req).1).trained = true) ∧
     (e.trained = false → ((hitUpdate cfg e vcla pcla req).1).trained = true →
       (cfg.numTrains : Int) ≤ ((hitUpdate cfg e vcla pcla req).1).trainHits) ∧
     (0 ≤ e.trainHits → 0 ≤ ((hitUpdate cfg e vcla pcla req).1).trainHits)) ∧
    (allocEntry vcla pcla req.ip).trained = false ∧
    (allocEntry vcla pcla req.ip).trainHits = 0 := by
  refine ⟨⟨?_, ?_, ?_⟩, rfl, rfl⟩
  · intro ht
    have hpt : postTrainEntry cfg e vcla pcla = e := by
      unfold postTrainEntry
      rw [if_pos ht]
    have h2 : (hitUpdate cfg e vcla pcla req).1 = (issueStep cfg e req).1 := by
      unfold hitUpdate
      rw [hpt, if_pos ht]
    rw [h2, (issueStep_preserves cfg e req).1]
    exact ht
  · intro hf htr
    have hne : ¬ (e.trained = true) := by rw [hf]; exact Bool.noConfusion
    have hpt : postTrainEntry cfg e vcla pcla = trainStep cfg e vcla pcla := by
      unfold postTrainEntry
      rw [if_neg hne]
    by_cases hts : (trainStep cfg e vcla pcla).trained = true
    · have h2 : (hitUpdate cfg e vcla pcla req).1 =
          (issueStep cfg (trainStep cfg e vcla pcla) req).1 := by
        unfold hitUpdate
        rw [hpt, if_pos hts]
      rw [h2, (issueStep_preserves cfg (trainStep cfg e vcla pcla) req).2.1]
      exact trainStep_trained_of cfg e vcla pcla hts hf
    · have h2 : (hitUpdate cfg e vcla pcla req).1 = trainStep cfg e vcla pcla := by
        unfold hitUpdate
        rw [hpt, if_neg hts]
      rw [h2] at htr
      exact absurd htr hts
  · intro h0
    by_cases ht : e.trained = true
    · have hpt : postTrainEntry cfg e vcla pcla = e := by
        unfold postTrainEntry
        rw [if_pos ht]
      have h2 : (hitUpdate cfg e vcla pcla req).1 = (issueStep cfg e req).1 := by
        unfold hitUpdate
        rw [hpt, if_pos ht]
      rw [h2, (issueStep_preserves cfg e req).2.1]
      exact h0
    · have hpt : postTrainEntry cfg e vcla pcla = trainStep cfg e vcla pcla := by
        unfold postTrainEntry
        rw [if_neg ht]
      have hfin : ((hitUpdate cfg e vcla pcla req).1).trainHits =
          (trainStep cfg e vcla pcla).trainHits := by
        unfold hitUpdate
        rw [hpt]
        by_cases hts : (trainStep cfg e vcla pcla).trained = true
        · rw [if_pos hts]
          exact (issueStep_preserves cfg (trainStep cfg e vcla pcla) req).2.1
        · rw [if_neg hts]
      rw [hfin, (trainStep_fields cfg e vcla pcla).1]
      rcases (trainCore_spec e vcla pcla).1 with hcc | hcc <;> rw [hcc] <;> omega

/-- C6 witness: the hit update applied to the trained record `entF`. -/
theorem c6_witness :
    ((entF.trained = true →
        ((hitUpdate cfgU entF 0 0 (rdReq 0 7)).1).trained = true) ∧
     (entF.trained = false →
        ((hitUpdate cfgU entF 0 0 (rdReq 0 7)).1).trained = true →
        (cfgU.numTrains : Int) ≤
          ((hitUpdate cfgU entF 0 0 (rdReq 0 7)).1).trainHits) ∧
     (0 ≤ entF.trainHits →
        0 ≤ ((hitUpdate cfgU entF 0 0 (rdReq 0 7)).1).trainHits)) ∧
    (allocEntry 0 0 (rdReq 0 7).ip).trained = false ∧
    (allocEntry 0 0 (rdReq 0 7).ip).trainHits = 0 :=
  c6_trained_monotone cfgU entF 0 0 (rdReq 0 7)

/-- For a forward entry with ordered pointers, the slide leaves `ep` alone
and afterwards `sp` trails `ep` by at most `_prefetchAddrDistance`. -/
theorem slideWindow_forward (cfg : Config) (E : StreamEntry)
    (hd : E.direction = StreamDirection.FORWARD)
    (hord : E.sp ≤ E.ep) (hep : E.ep < W64) :
    (slideWindow cfg E).ep = E.ep ∧
    (slideWindow cfg E).sp ≤ E.ep ∧
    E.ep - (slideWindow cfg E).sp ≤ cfg.prefetchAddrDistance := by
  have hsp : E.sp < W64 := lt_of_le_of_lt hord hep
  have h1 : (E.ep % W64 + W64 - E.sp % W64) % W64 = E.ep - E.sp := by
    rw [Nat.mod_eq_of_lt hep, Nat.mod_eq_of_lt hsp]
    exact wrapSub_eq hord hep
  unfold slideWindow
  rw [hd, h1]
  by_cases hc : cfg.prefetchAddrDistance < E.ep - E.sp
  · rw [if_pos ⟨rfl, hc⟩]
    have hDle : cfg.prefetchAddrDistance ≤ E.ep := by omega
    have h2 : (E.ep % W64 + W64 - cfg.prefetchAddrDistance) % W64
        = E.ep - cfg.prefetchAddrDistance := by
      rw [Nat.mod_eq_of_lt hep]
      exact wrapSub_eq hDle hep
    refine ⟨rfl, ?_, ?_⟩
    · show (E.ep % W64 + W64 - cfg.prefetchAddrDistance) % W64 ≤ E.ep
      rw [h2]
      omega
    · show E.ep - (E.ep % W64 + W64 - cfg.prefetchAddrDistance) % W64 ≤
        cfg.prefetchAddrDistance
      rw [h2]
      omega
  · rw [if_neg (fun hh => hc hh.2), if_neg (fun hh => by cases hh.1)]
    exact ⟨rfl, hord, by omega⟩

/-- C7: for a trained forward record with ordered window pointers, an
issuance step (issue loop followed by the window slide) keeps
`windowStart ≤ windowEnd` and leaves `windowEnd - windowStart` at most
`_prefetchAddrDistance` (= distance · blockSize); the overflow hypothesis
keeps the 64-bit address advance from wrapping. -/
theorem c7_forward_window_bounds (cfg : Config) (e : StreamEntry) (req : Request)
    (ht : e.trained = true) (hd : e.direction = StreamDirection.FORWARD)
    (hord : e.sp ≤ e.ep)
    (hbound : e.ep + cfg.degree * cfg.blockSize < W64) :
    ((issueStep cfg e req).1).sp ≤ ((issueStep cfg e req).1).ep ∧
    ((issueStep cfg e req).1).ep - ((issueStep cfg e req).1).sp ≤
      cfg.prefetchAddrDistance := by
  have hepW : e.ep < W64 := lt_of_le_of_lt (Nat.le_add_right _ _) hbound
  have hnle : numPrefetchesCount cfg e ≤ cfg.degree := numPrefetchesCount_le cfg e
  have hstep_le : cfg.blockSize % W32 ≤ cfg.blockSize := Nat.mod_le _ _
  have hmul : numPrefetchesCount cfg e * (cfg.blockSize % W32) ≤
      cfg.degree * cfg.blockSize := Nat.mul_le_mul hnle hstep_le
  have hA : e.ep + numPrefetchesCount cfg e * (cfg.blockSize % W32) < W64 := by
    omega
  have hstep : dirStepU32 cfg e.direction = cfg.blockSize % W32 := by
    rw [hd]
    rfl
  have hfst : (advanceLoop (dirStepU32 cfg e.direction) e.ep e.pep req.ip
      req.icount (numPrefetchesCount cfg e)).1
      = e.ep + numPrefetchesCount cfg e * (cfg.blockSize % W32) := by
    rw [hstep, advanceLoop_fst _ _ _ _ _ _ hepW, Nat.mod_eq_of_lt hA]
  have hfst2 : (issueStep cfg e req).1 = slideWindow cfg
      { e with
          ep := e.ep + numPrefetchesCount cfg e * (cfg.blockSize % W32),
          pep := (advanceLoop (dirStepU32 cfg e.direction) e.ep e.pep req.ip
                  req.icount (numPrefetchesCount cfg e)).2.1 } := by
    show slideWindow cfg _ = _
    rw [hfst]
  rw [hfst2]
  obtain ⟨w1, w2, w3⟩ := slideWindow_forward cfg
    { e with
        ep := e.ep + numPrefetchesCount cfg e * (cfg.blockSize % W32),
        pep := (advanceLoop (dirStepU32 cfg e.direction) e.ep e.pep req.ip
                req.icount (numPrefetchesCount cfg e)).2.1 }
    hd (le_trans hord (Nat.le_add_right _ _)) hA
  rw [w1]
  exact ⟨w2, w3⟩

/-- C7 witness: the trained forward record `entF` under `cfgU`. -/
theorem c7_witness :
    ((issueStep cfgU entF (rdReq 64 7)).1).sp ≤
      ((issueStep cfgU entF (rdReq 64 7)).1).ep ∧
    ((issueStep cfgU entF (rdReq 64 7)).1).ep -
        ((issueStep cfgU entF (rdReq 64 7)).1).sp ≤
      cfgU.prefetchAddrDistance :=
  c7_forward_window_bounds cfgU entF (rdReq 64 7) rfl rfl (by decide) (by decide)

/-- `llabs` of a wrapped self-difference is zero. -/
theorem llabsDiff_self (a : Nat) : llabsDiff a a = 0 := by
  unfold llabsDiff
  have h1 : a % W64 + W64 - a % W64 = W64 := by omega
  rw [h1, Nat.mod_self]
  unfold toInt64
  rw [Nat.zero_mod, if_pos (by norm_num : (0 : Nat) < 2 ^ 63)]
  rfl

/-- C8: writes, write-backs, in-flight prefetches, and — when
prefetch-on-write is disabled — read-for-ownership requests pass through
with zero effect: the table and running index are unchanged, no prefetch is
emitted, and 0 busy cycles are returned (lines 185-196). -/
theorem c8_ignored_requests_no_effect (cfg : Config) (st : State) (req : Request)
    (h : req.type = ReqType.WRITE ∨ req.type = ReqType.WRITEBACK ∨
         req.type = ReqType.PREFETCH ∨
         (cfg.prefetchOnWrite = false ∧ req.type = ReqType.READ_FOR_WRITE)) :
    ProcessRequest cfg st req = (st, [], 0) := by
  unfold ProcessRequest
  rcases h with h | h | h | ⟨h1, h2⟩
  · rw [if_pos (Or.inl h)]
  · rw [if_pos (Or.inr (Or.inl h))]
  · rw [if_pos (Or.inr (Or.inr h))]
  · have hne : ¬ (req.type = ReqType.WRITE ∨ req.type = ReqType.WRITEBACK ∨
        req.type = ReqType.PREFETCH) := by
      rw [h2]
      rintro (a | a | a) <;> exact ReqType.noConfusion a
    rw [if_neg hne, if_pos ⟨h1, h2⟩]

/-- C8 witness: a write request leaves the empty state untouched. -/
theorem c8_witness :
    ProcessRequest cfgU st0
      { type := ReqType.WRITE, vaddr := 0, paddr := 0, ip := 0, icount := 0 } =
      (st0, [], 0) :=
  c8_ignored_requests_no_effect cfgU st0
    { type := ReqType.WRITE, vaddr := 0, paddr := 0, ip := 0, icount := 0 }
    (Or.inl rfl)

/-- C9: on a processed read that matches no row, exactly one fresh record is
inserted, with anchor = windowStart = windowEnd = the block-aligned virtual
address, physical pointers at the block-aligned physical address,
`trainHits = 0`, untrained, direction NONE, under the key `_runningIndex` —
which, under the invariant that every existing key is below `_runningIndex`,
strictly exceeds every previously assigned key — and the running index is
then incremented; no prefetch is emitted. -/
theorem c9_alloc_on_miss (cfg : Config) (st : State) (req : Request)
    (hty : req.type = ReqType.READ)
    (hmiss : findMatchRow cfg st.rows (blockAlign cfg.blockSize req.vaddr) = none)
    (hkeys : ∀ r ∈ st.rows, r.key < st.runningIndex) :
    (ProcessRequest cfg st req).1.rows =
      st.rows ++
        [{ key := st.runningIndex,
           value := { allocMissAddress := blockAlign cfg.blockSize req.vaddr,
                      ip := req.ip,
                      sp := blockAlign cfg.blockSize req.vaddr,
                      ep := blockAlign cfg.blockSize req.vaddr,
                      psp := blockAlign cfg.blockSize req.paddr,
                      pep := blockAlign cfg.blockSize req.paddr,
                      trainHits := 0, trained := false,
                      direction := StreamDirection.NONE },
           valid := true }] ∧
    (ProcessRequest cfg st req).1.runningIndex = (st.runningIndex + 1) % W32 ∧
    (∀ r ∈ st.rows, r.key < st.runningIndex) ∧
    (ProcessRequest cfg st req).2.1 = [] := by
  have hne1 : ¬ (req.type = ReqType.WRITE ∨ req.type = ReqType.WRITEBACK ∨
      req.type = ReqType.PREFETCH) := by
    rw [hty]
    rintro (a | a | a) <;> exact ReqType.noConfusion a
  have hne2 : ¬ (cfg.prefetchOnWrite = false ∧
      req.type = ReqType.READ_FOR_WRITE) := by
    rintro ⟨-, h2⟩
    rw [hty] at h2
    exact ReqType.noConfusion h2
  unfold ProcessRequest
  rw [if_neg hne1, if_neg hne2, hmiss]
  exact ⟨rfl, rfl, hkeys, rfl⟩

/-- C9 witness: a read at the never-seen address 4096 allocates into the
empty table. -/
theorem c9_witness :
    (ProcessRequest cfgU st0 (rdReq 4096 9)).1.rows =
      st0.rows ++
        [{ key := st0.runningIndex,
           value := { allocMissAddress := blockAlign cfgU.blockSize (rdReq 4096 9).vaddr,
                      ip := (rdReq 4096 9).ip,
                      sp := blockAlign cfgU.blockSize (rdReq 4096 9).vaddr,
                      ep := blockAlign cfgU.blockSize (rdReq 4096 9).vaddr,
                      psp := blockAlign cfgU.blockSize (rdReq 4096 9).paddr,
                      pep := blockAlign cfgU.blockSize (rdReq 4096 9).paddr,
                      trainHits := 0, trained := false,
                      direction := StreamDirection.NONE },
           valid := true }] ∧
    (ProcessRequest cfgU st0 (rdReq 4096 9)).1.runningIndex =
      (st0.runningIndex + 1) % W32 ∧
    (∀ r ∈ st0.rows, r.key < st0.runningIndex) ∧
    (ProcessRequest cfgU st0 (rdReq 4096 9)).2.1 = [] :=
  c9_alloc_on_miss cfgU st0 (rdReq 4096 9) rfl rfl
    (fun r hr => absurd hr (List.not_mem_nil r))

/-- C10: a training-phase access at exactly the record's anchor address is a
training hit (whenever the training window is nonempty) and is classified as
a backward candidate: with direction NONE or FORWARD the trainer resets
`trainHits` to 1 and sets direction BACKWARD; with direction BACKWARD it
increments `trainHits`, and once the incremented count reaches the
`num-trains` threshold the promotion check marks the record trained — so
repeated accesses to the same address promote to a trained backward stream. -/
theorem c10_anchor_hit_backward (cfg : Config) (e : StreamEntry) (pcla : Nat)
    (hu : e.trained = false) (hw : 0 < cfg.trainAddrDistance) :
    matchEntry cfg e e.allocMissAddress = true ∧
    ((e.direction = StreamDirection.NONE ∨
        e.direction = StreamDirection.FORWARD) →
      (trainStep cfg e e.allocMissAddress pcla).trainHits = 1 ∧
      (trainStep cfg e e.allocMissAddress pcla).direction =
        StreamDirection.BACKWARD) ∧
    (e.direction = StreamDirection.BACKWARD →
      (trainStep cfg e e.allocMissAddress pcla).trainHits = e.trainHits + 1 ∧
      (trainStep cfg e e.allocMissAddress pcla).direction =
        StreamDirection.BACKWARD ∧
      ((cfg.numTrains : Int) ≤ e.trainHits + 1 →
        (trainStep cfg e e.allocMissAddress pcla).trained = true)) := by
  refine ⟨?_, ?_, ?_⟩
  · unfold matchEntry
    rw [hu, if_pos rfl, llabsDiff_self]
    exact decide_eq_true hw
  · intro hdor
    have hcore : trainCore e e.allocMissAddress pcla =
        { e with trainHits := 1, direction := StreamDirection.BACKWARD,
                 ep := e.allocMissAddress, pep := pcla } := by
      unfold trainCore
      rw [if_neg (lt_irrefl e.allocMissAddress)]
      rcases hdor with hdn | hdf
      · rw [hdn]
      · rw [hdf]
    obtain ⟨t1, t2, -, -, -, -⟩ := trainStep_fields cfg e e.allocMissAddress pcla
    rw [t1, t2, hcore]
    exact ⟨rfl, rfl⟩
  · intro hdb
    have hcore : (trainCore e e.allocMissAddress pcla).trainHits =
          e.trainHits + 1 ∧
        (trainCore e e.allocMissAddress pcla).direction =
          StreamDirection.BACKWARD := by
      unfold trainCore
      rw [if_neg (lt_irrefl e.allocMissAddress), hdb]
      dsimp only
      split
      · exact ⟨rfl, rfl⟩
      · exact ⟨rfl, rfl⟩
    obtain ⟨t1, t2, -, -, -, -⟩ := trainStep_fields cfg e e.allocMissAddress pcla
    refine ⟨by rw [t1, hcore.1], by rw [t2, hcore.2], ?_⟩
    intro hth
    have hcond : (cfg.numTrains : Int) ≤
        (trainCore e e.allocMissAddress pcla).trainHits := by
      rw [hcore.1]
      exact hth
    unfold trainStep
    rw [if_pos hcond]

/-- C10 witness: `entA` has one backward hit recorded at its anchor 128; a
second access at 128 increments to the `num-trains = 2` threshold and
promotes the record to a trained backward stream. -/
theorem c10_witness :
    matchEntry cfgU entA entA.allocMissAddress = true ∧
    ((entA.direction = StreamDirection.NONE ∨
        entA.direction = StreamDirection.FORWARD) →
      (trainStep cfgU entA entA.allocMissAddress 128).trainHits = 1 ∧
      (trainStep cfgU entA entA.allocMissAddress 128).direction =
        StreamDirection.BACKWARD) ∧
    (entA.direction = StreamDirection.BACKWARD →
      (trainStep cfgU entA entA.allocMissAddress 128).trainHits =
        entA.trainHits + 1 ∧
      (trainStep cfgU entA entA.allocMissAddress 128).direction =
        StreamDirection.BACKWARD ∧
      ((cfgU.numTrains : Int) ≤ entA.trainHits + 1 →
        (trainStep cfgU entA entA.allocMissAddress 128).trained = true)) :=
  c10_anchor_hit_backward cfgU entA 128 rfl (by decide)
